import Mathlib

/-!
# libnetfile: a shallow embedding of `libnetfile.c`

The file transfer library is modelled as pure functions over explicit state.

* Bytes are natural numbers; buffers are lists of bytes.
* `size_t` and `ssize_t`/`off_t` are 64 bit wide, `uint32_t` is 32 bit wide;
  conversions between them are written out with explicit `%`.
* The operating system (sockets, `Select`, `read`, `readline_unbuffered`,
  `sendn`, `writen`, `fstat`, `fread`, `fwrite`, `malloc`) is an oracle: every
  call of a receive path consumes one `SockStep`, which says what each
  primitive would return if it were called at that point.
* Local variables the C code leaves uninitialised (`file_size_n`,
  `file_timestamp_n`, `numWritten`) start with an arbitrary value supplied by
  the environment record.
-/

namespace Libnetfile

/-! ## Machine integers -/

abbrev Byte := Nat

/-- Conversion of a signed value to `size_t` (64 bit, wraps). -/
def toSizeT (x : Int) : Nat := (x % 18446744073709551616).toNat

/-- Conversion of an integer to `off_t`/`ssize_t` (64 bit two's complement). -/
def toOffT (x : Int) : Int :=
  (x + 9223372036854775808) % 18446744073709551616 - 9223372036854775808

/-- Conversion of an integer to `uint32_t`. -/
def toU32 (x : Int) : Nat := (x % 4294967296).toNat

/-- Swap the four bytes of a 32 bit value. -/
def bswap32 (x : Nat) : Nat :=
  (x % 256) * 16777216 + (x / 256 % 256) * 65536 + (x / 65536 % 256) * 256
    + (x / 16777216 % 256)

/-- The four bytes of a `uint32_t` as they lie in memory on the host. -/
def toMem (bigEndian : Bool) (x : Nat) : List Byte :=
  if bigEndian then
    [x / 16777216 % 256, x / 65536 % 256, x / 256 % 256, x % 256]
  else
    [x % 256, x / 256 % 256, x / 65536 % 256, x / 16777216 % 256]

/-- The `uint32_t` value that four bytes of memory hold on the host. -/
def fromMem (bigEndian : Bool) (bs : List Byte) : Nat :=
  let b0 := bs.getD 0 0 % 256
  let b1 := bs.getD 1 0 % 256
  let b2 := bs.getD 2 0 % 256
  let b3 := bs.getD 3 0 % 256
  if bigEndian then b0 * 16777216 + b1 * 65536 + b2 * 256 + b3
  else b3 * 16777216 + b2 * 65536 + b1 * 256 + b0

/-- Library `htonl`: identity on a big-endian host, byte swap otherwise. -/
def htonl (bigEndian : Bool) (x : Nat) : Nat :=
  if bigEndian then x % 4294967296 else bswap32 (x % 4294967296)

/-- Library `ntohl`: identity on a big-endian host, byte swap otherwise. -/
def ntohl (bigEndian : Bool) (x : Nat) : Nat :=
  if bigEndian then x % 4294967296 else bswap32 (x % 4294967296)

/-- Contents of a buffer `old` after a primitive stored `data` at its start. -/
def overlay (data old : List Byte) : List Byte :=
  (data ++ old.drop data.length).take old.length

/-! ## Constants of `libnetfile.c` -/

def ERRVAL : Int := -1
def SUCCESSVAL : Int := 0
def NO_CONNECTION_ERR : Int := 600
def NEGATIVE_RESPONSE_ERR : Int := 601
def FILE_STAT_ERR : Int := 602
def FILE_IO_ERR : Int := 603
def OPERATION_SUCCESS : Int := 200
def MEMORY_ERR : Int := 604
def TIMEOUT_ERR : Int := 605
def READLINE_OPT : Int := 1

/-! ## Data model -/

/-- The `struct netfile`; the `FILE *` is modelled by the callers' environment. -/
structure Netfile where
  socket : Int
  err_status : String
  fsize : Nat
  ftimestamp : Nat
  timerlength : Int
  deriving DecidableEq, Repr

/-- The `struct netcomm` (inbox): buffer, capacity and timer. -/
structure Netcomm where
  msg : List Byte
  size : Nat
  timerlength : Int
  deriving DecidableEq, Repr

/-- What a socket read primitive does when called: fail with `-1`, or store
`bs` in the buffer and return `bs.length`. -/
inductive ReadOutcome where
  | err
  | data (bs : List Byte)
  deriving DecidableEq, Repr

/-- Return value of a read primitive. -/
def ReadOutcome.ret : ReadOutcome → Int
  | .err => -1
  | .data bs => (bs.length : Int)

/-- Bytes a read primitive stores in the buffer. -/
def ReadOutcome.bytes : ReadOutcome → List Byte
  | .err => []
  | .data bs => bs

/-- Oracle for one call of `netfile_read`: the value `Select` would return,
and what `read` and `readline_unbuffered` would do. -/
structure SockStep where
  selectRet : Int
  readRes : ReadOutcome
  lineRes : ReadOutcome
  deriving DecidableEq, Repr

/-- A step on which the socket is ready and delivers the bytes `bs`. -/
def SockStep.deliver (bs : List Byte) : SockStep :=
  { selectRet := 1, readRes := .data bs, lineRes := .data bs }

/-- A step on which no readiness is signalled before the deadline. -/
def SockStep.expire : SockStep :=
  { selectRet := 0, readRes := .data [], lineRes := .data [] }

/-- A step on which the socket is ready but the read primitive fails. -/
def SockStep.fail : SockStep :=
  { selectRet := 1, readRes := .err, lineRes := .err }

/-- Primitive calls made by a read path, in order. -/
inductive Call where
  | select (fd : Int) (sec : Int)
  | read (fd : Int) (count : Nat)
  | readline (fd : Int) (count : Nat)
  deriving DecidableEq, Repr

/-- Whether a call is one of the two read primitives. -/
def Call.isRead : Call → Bool
  | .select _ _ => false
  | .read _ _ => true
  | .readline _ _ => true

/-- Whether a call is the readiness wait. -/
def Call.isSelect : Call → Bool
  | .select _ _ => true
  | _ => false

/-- Result of a read path: returned count, bytes stored, calls made. -/
structure ReadResult where
  ret : Int
  bytes : List Byte
  calls : List Call
  deriving DecidableEq, Repr

/-! ## Status registry and session lifecycle -/

/-- The function `netfile_error_handler`: store the label of `code`. -/
def netfile_error_handler (userfile : Netfile) (code : Int) : Netfile :=
  if code = 600 then { userfile with err_status := "NO_CONNECTION_ERR" }
  else if code = 601 then { userfile with err_status := "NEGATIVE_RESPONSE_ERR" }
  else if code = 602 then { userfile with err_status := "NO_FILE_STAT_ERR" }
  else if code = 603 then { userfile with err_status := "FILE_IO_ERR" }
  else if code = 200 then { userfile with err_status := "DONE" }
  else if code = 604 then { userfile with err_status := "MEMORY_ERR" }
  else if code = 605 then { userfile with err_status := "TIMEOUT_ERR" }
  else { userfile with err_status := "ERROR_NOT_HANDLED" }

/-- The function `netfile_init`; `-1` stored in a `uint32_t` is `2^32 - 1`. -/
def netfile_init (socket : Int) : Netfile :=
  { socket := socket, err_status := "", fsize := toU32 (-1),
    ftimestamp := toU32 (-1), timerlength := 0 }

/-- The function `netfile_inbox_init` with the buffer's initial contents. -/
def netfile_inbox_init (dim : Nat) (initial : List Byte) : Netcomm :=
  { msg := initial, size := dim, timerlength := 0 }

def netfile_enable_timer (userfile : Netfile) (timerlength : Int) : Netfile :=
  if timerlength > 0 then { userfile with timerlength := timerlength } else userfile

def netfile_disable_timer (userfile : Netfile) : Netfile :=
  { userfile with timerlength := 0 }

def netfile_inbox_enable_timer (inbox : Netcomm) (timerlength : Int) : Netcomm :=
  if timerlength > 0 then { inbox with timerlength := timerlength } else inbox

def netfile_inbox_disable_timer (inbox : Netcomm) : Netcomm :=
  { inbox with timerlength := 0 }

def netfile_error_info (userfile : Netfile) : String := userfile.err_status

def netfile_get_size (userfile : Netfile) : Nat := userfile.fsize

def netfile_get_timestamp (userfile : Netfile) : Nat := userfile.ftimestamp

/-! ## Deadline-bound read -/

/-- The function `netfile_std_read`: `readline_unbuffered` for `READLINE_OPT`,
plain `read` for every other option. -/
def netfile_std_read (step : SockStep) (fd : Int) (count : Nat) (option : Int) :
    ReadResult :=
  if option = READLINE_OPT then
    { ret := step.lineRes.ret, bytes := step.lineRes.bytes,
      calls := [Call.readline fd count] }
  else
    { ret := step.readRes.ret, bytes := step.readRes.bytes,
      calls := [Call.read fd count] }

/-- The function `netfile_crono_read`: wait with `Select`, read only when it
returned a positive count, otherwise return `-1`. -/
def netfile_crono_read (step : SockStep) (fd : Int) (count : Nat) (option : Int)
    (timerlength : Int) : ReadResult :=
  let timerlength := if timerlength ≤ 0 then 0 else timerlength
  let n := step.selectRet
  if n > 0 then
    let r := netfile_std_read step fd count option
    { r with calls := Call.select fd timerlength :: r.calls }
  else
    { ret := -1, bytes := [], calls := [Call.select fd timerlength] }

/-- The function `netfile_read`: the timed read when the timer is positive,
otherwise `netfile_std_read` called with option `0`. -/
def netfile_read (step : SockStep) (fd : Int) (count : Nat) (option : Int)
    (timerlength : Int) : ReadResult :=
  if timerlength > 0 then netfile_crono_read step fd count option timerlength
  else netfile_std_read step fd count 0

/-! ## Message channel: receiving a control line -/

/-- Outcome of `netfile_recv_msg`: the returned pointer (`none` is `NULL`,
otherwise the buffer contents it points to), the inbox afterwards, the index at
which the terminator was stored (if any) and the primitive calls made. -/
structure RecvMsgResult where
  ret : Option (List Byte)
  inbox : Netcomm
  termIndex : Option Nat
  calls : List Call
  deriving DecidableEq, Repr

/-- The function `netfile_recv_msg`. The result of `netfile_read` is stored in
the `size_t` variable `len`, so the test `len < 0` compares naturals. -/
def netfile_recv_msg (step : SockStep) (socket : Int) (inbox : Netcomm) :
    RecvMsgResult :=
  let r := netfile_read step socket inbox.size READLINE_OPT inbox.timerlength
  let buf := overlay r.bytes inbox.msg
  let len : Nat := toSizeT r.ret
  if len < 0 then
    { ret := none, inbox := { inbox with msg := buf }, termIndex := none,
      calls := r.calls }
  else if len = 0 then
    { ret := none, inbox := { inbox with msg := buf }, termIndex := none,
      calls := r.calls }
  else if len < inbox.size then
    { ret := some (buf.set len 0), inbox := { inbox with msg := buf.set len 0 },
      termIndex := some len, calls := r.calls }
  else
    let i := toSizeT ((inbox.size : Int) - 1)
    { ret := some (buf.set i 0), inbox := { inbox with msg := buf.set i 0 },
      termIndex := some i, calls := r.calls }

/-! ## Bulk transmitter -/

/-- Buffer initialisation shared by `netfile_send` and `netfile_recv`: a
`buffer_size` of `0` is replaced by `BUFSIZE`. -/
def chunkSize (BUFSIZE buffer_size : Nat) : Nat :=
  if buffer_size ≤ 0 then BUFSIZE else buffer_size

/-- Environment of `netfile_send`: the constant `BUFSIZE` of `sockwrap.h`, the
host byte order, whether `malloc` succeeds, the result of `fstat`
(`st_size`, `st_mtime`), the file contents, whether `fread` at a given offset
sets the error indicator, and the values `sendn` and `writen` return. -/
structure SendEnv where
  BUFSIZE : Nat
  bigEndian : Bool
  mallocOk : Bool
  fstat : Option (Int × Int)
  content : List Byte
  ferror : Int → Bool
  sendn : List Byte → Int
  writen : List Byte → Int

/-- Outcome of `netfile_send`: return value, session afterwards and the bytes
written to the socket, in order. -/
structure SendResult where
  ret : Int
  session : Netfile
  sock : List Byte
  deriving DecidableEq, Repr

/-- The content loop of `netfile_send`. One unit of fuel is one iteration; the
result is `none` when the fuel runs out while `bytes_left > 0`. -/
def netfile_send_loop (env : SendEnv) (buffer_size : Nat) :
    Nat → Netfile → Int → Int → List Byte → Option SendResult
  | 0, userfile, bytes_left, _, sock =>
    if bytes_left > 0 then none
    else some { ret := SUCCESSVAL,
                session := netfile_error_handler userfile OPERATION_SUCCESS, sock := sock }
  | fuel + 1, userfile, bytes_left, file_ptr, sock =>
    if bytes_left > 0 then
      -- fseek to file_ptr, then fread of up to buffer_size bytes
      let s_buf := (env.content.drop file_ptr.toNat).take buffer_size
      let numRead : Nat := s_buf.length
      if env.ferror file_ptr then
        some { ret := ERRVAL, session := netfile_error_handler userfile FILE_IO_ERR,
               sock := sock }
      else
        let numSent : Int := env.writen s_buf
        if toSizeT numSent ≠ numRead then
          some { ret := ERRVAL, session := netfile_error_handler userfile FILE_IO_ERR,
                 sock := sock ++ s_buf.take numSent.toNat }
        else
          netfile_send_loop env buffer_size fuel userfile (toOffT (bytes_left - numSent))
            (toOffT (file_ptr + numSent)) (sock ++ s_buf)
    else some { ret := SUCCESSVAL,
                session := netfile_error_handler userfile OPERATION_SUCCESS, sock := sock }

/-- The function `netfile_send`. -/
def netfile_send (env : SendEnv) (userfile : Netfile) (buffer_size : Nat) (fuel : Nat) :
    Option SendResult :=
  let buffer_size := chunkSize env.BUFSIZE buffer_size
  if !env.mallocOk then
    some { ret := ERRVAL, session := netfile_error_handler userfile MEMORY_ERR, sock := [] }
  else
    match env.fstat with
    | none =>
      some { ret := ERRVAL, session := netfile_error_handler userfile FILE_STAT_ERR, sock := [] }
    | some (fsize, ftimestamp) =>
      let fsize32 := htonl env.bigEndian (toU32 fsize)
      let ftimestamp32 := htonl env.bigEndian (toU32 ftimestamp)
      let sizeField := toMem env.bigEndian fsize32
      if env.sendn sizeField < 0 then
        some { ret := ERRVAL, session := netfile_error_handler userfile FILE_IO_ERR, sock := [] }
      else
        let sock := sizeField.take (env.sendn sizeField).toNat
        let stampField := toMem env.bigEndian ftimestamp32
        if env.sendn stampField < 0 then
          some { ret := ERRVAL, session := netfile_error_handler userfile FILE_IO_ERR,
                 sock := sock }
        else
          let sock := sock ++ stampField.take (env.sendn stampField).toNat
          netfile_send_loop env buffer_size fuel userfile (toOffT fsize) 0 sock

/-! ## Bulk receiver -/

/-- Environment of `netfile_recv`: the constant `BUFSIZE`, the host byte order,
whether `malloc` succeeds, the values the uninitialised locals `file_size_n`,
`file_timestamp_n` and `numWritten` start with, and the count `fwrite` returns
for a chunk. -/
structure RecvEnv where
  BUFSIZE : Nat
  bigEndian : Bool
  mallocOk : Bool
  file_size_n : Nat
  file_timestamp_n : Nat
  numWritten : Nat
  fwrite : List Byte → Nat

/-- Outcome of `netfile_recv`: return value, session afterwards and the bytes
written to the destination file, in order. -/
structure RecvResult where
  ret : Int
  session : Netfile
  written : List Byte
  deriving DecidableEq, Repr

/-- The content loop of `netfile_recv`. Every iteration consumes one socket
step; the result is `none` when the steps run out while `bytes_left > 0`.
`numWritten` keeps its previous value when a read returns zero bytes. -/
def netfile_recv_loop (env : RecvEnv) (buffer_size : Nat) :
    List SockStep → Netfile → Int → Nat → List Byte → Option RecvResult
  | [], userfile, bytes_left, _, written =>
    if bytes_left > 0 then none
    else some { ret := SUCCESSVAL,
                session := netfile_error_handler userfile OPERATION_SUCCESS,
                written := written }
  | step :: rest, userfile, bytes_left, numWritten, written =>
    if bytes_left > 0 then
      let r := netfile_read step userfile.socket buffer_size 0 userfile.timerlength
      let numRecv : Int := r.ret
      if numRecv < 0 then
        some { ret := ERRVAL, session := netfile_error_handler userfile FILE_IO_ERR,
               written := written }
      else if numRecv > 0 then
        let numWritten := env.fwrite r.bytes
        if numWritten ≠ toSizeT numRecv then
          some { ret := ERRVAL, session := netfile_error_handler userfile FILE_IO_ERR,
                 written := written ++ r.bytes.take numWritten }
        else
          netfile_recv_loop env buffer_size rest userfile
            (toOffT (bytes_left - numWritten)) numWritten (written ++ r.bytes)
      else
        netfile_recv_loop env buffer_size rest userfile
          (toOffT (bytes_left - numWritten)) numWritten written
    else some { ret := SUCCESSVAL,
                session := netfile_error_handler userfile OPERATION_SUCCESS,
                written := written }

/-- The function `netfile_recv`. The script lists the socket steps of the
successive `netfile_read` calls; the result is `none` when it is used up before
the function returns. -/
def netfile_recv (env : RecvEnv) (userfile : Netfile) (buffer_size : Nat)
    (script : List SockStep) : Option RecvResult :=
  let buffer_size := chunkSize env.BUFSIZE buffer_size
  if !env.mallocOk then
    some { ret := ERRVAL, session := netfile_error_handler userfile MEMORY_ERR, written := [] }
  else
    match script with
    | [] => none
    | s1 :: rest1 =>
      let r1 := netfile_read s1 userfile.socket 4 0 userfile.timerlength
      if r1.ret < 0 then
        some { ret := ERRVAL, session := netfile_error_handler userfile TIMEOUT_ERR,
               written := [] }
      else
        let file_size_n :=
          fromMem env.bigEndian (overlay r1.bytes (toMem env.bigEndian env.file_size_n))
        let fsize := ntohl env.bigEndian file_size_n
        let userfile := { userfile with fsize := fsize }
        match rest1 with
        | [] => none
        | s2 :: rest2 =>
          let r2 := netfile_read s2 userfile.socket 4 0 userfile.timerlength
          if r2.ret < 0 then
            some { ret := ERRVAL, session := netfile_error_handler userfile TIMEOUT_ERR,
                   written := [] }
          else
            let file_timestamp_n :=
              fromMem env.bigEndian
                (overlay r2.bytes (toMem env.bigEndian env.file_timestamp_n))
            let file_timestamp := ntohl env.bigEndian file_timestamp_n
            let userfile := { userfile with ftimestamp := file_timestamp }
            netfile_recv_loop env buffer_size rest2 userfile (fsize : Int)
              env.numWritten []

/-! ## Reference environments -/

/-- A sender environment in which no operation fails: `fstat` reports the
length of `content` and the modification time `mtime`. -/
def SendEnv.ok (bufsize : Nat) (bigEndian : Bool) (content : List Byte) (mtime : Int) :
    SendEnv :=
  { BUFSIZE := bufsize, bigEndian := bigEndian, mallocOk := true,
    fstat := some ((content.length : Int), mtime), content := content,
    ferror := fun _ => false,
    sendn := fun bs => (bs.length : Int),
    writen := fun bs => (bs.length : Int) }

/-- A receiver environment in which `malloc` and `fwrite` do not fail; the
uninitialised locals start with the given values. -/
def RecvEnv.ok (bufsize : Nat) (bigEndian : Bool) (g1 g2 g3 : Nat) : RecvEnv :=
  { BUFSIZE := bufsize, bigEndian := bigEndian, mallocOk := true,
    file_size_n := g1, file_timestamp_n := g2, numWritten := g3,
    fwrite := fun bs => bs.length }

/-- The big-endian (network order) encoding of a 32 bit value. -/
def be32 (x : Nat) : List Byte :=
  [x / 16777216 % 256, x / 65536 % 256, x / 256 % 256, x % 256]

end Libnetfile

namespace Libnetfile

/-! ## Helper lemmas -/

theorem toSizeT_natCast (n : Nat) (h : n < 18446744073709551616) : toSizeT (n : Int) = n := by
  unfold toSizeT
  omega

theorem toSizeT_neg_one : toSizeT (-1) = 18446744073709551615 := by
  decide

theorem handler_timeout (u : Netfile) :
    netfile_error_handler u TIMEOUT_ERR = { u with err_status := "TIMEOUT_ERR" } := by
  simp [netfile_error_handler, TIMEOUT_ERR]

theorem handler_read_failed (u : Netfile) :
    netfile_error_handler u FILE_IO_ERR = { u with err_status := "FILE_IO_ERR" } := by
  simp [netfile_error_handler, FILE_IO_ERR]

theorem handler_success (u : Netfile) :
    netfile_error_handler u OPERATION_SUCCESS = { u with err_status := "DONE" } := by
  simp [netfile_error_handler, OPERATION_SUCCESS]

theorem ReadOutcome.ret_eq_length (o : ReadOutcome) (h : 0 ≤ o.ret) :
    (o.bytes.length : Int) = o.ret := by
  cases o with
  | err => simp [ReadOutcome.ret] at h
  | data bs => rfl

theorem netfile_std_read_length (step : SockStep) (fd : Int) (count : Nat) (option : Int)
    (h : 0 ≤ (netfile_std_read step fd count option).ret) :
    ((netfile_std_read step fd count option).bytes.length : Int)
      = (netfile_std_read step fd count option).ret := by
  unfold netfile_std_read at h ⊢
  split
  · rename_i ho
    simp only [ho, if_true] at h
    exact ReadOutcome.ret_eq_length _ h
  · rename_i ho
    simp only [ho, if_false] at h
    exact ReadOutcome.ret_eq_length _ h

theorem netfile_read_length (step : SockStep) (fd : Int) (count : Nat) (option D : Int)
    (h : 0 ≤ (netfile_read step fd count option D).ret) :
    ((netfile_read step fd count option D).bytes.length : Int)
      = (netfile_read step fd count option D).ret := by
  unfold netfile_read at h ⊢
  by_cases hD : D > 0
  · simp only [hD, if_true] at h ⊢
    unfold netfile_crono_read at h ⊢
    by_cases hn : step.selectRet > 0
    · simp only [hn, if_true] at h ⊢
      exact netfile_std_read_length step fd count option h
    · simp only [hn, if_false] at h
      omega
  · simp only [hD, if_false] at h ⊢
    exact netfile_std_read_length step fd count 0 h

theorem set_last_eq_take (l : List Byte) (n : Nat) (hn : 1 ≤ n) (hl : l.length = n) :
    l.set (n - 1) 0 = l.take (n - 1) ++ [0] := by
  rw [List.set_eq_take_append_cons_drop]
  have h1 : n - 1 < l.length := by omega
  simp only [h1, if_true]
  have h2 : l.drop (n - 1 + 1) = [] := by
    apply List.drop_eq_nil_of_le
    omega
  rw [h2]

theorem overlay_full (bs old : List Byte) (h : bs.length = old.length) :
    overlay bs old = bs := by
  unfold overlay
  rw [← h]
  simp

theorem netfile_read_opt0_nonneg (step : SockStep) (fd : Int) (count : Nat) (D : Int)
    (h : 0 ≤ (netfile_read step fd count 0 D).ret) :
    step.readRes = .data (netfile_read step fd count 0 D).bytes := by
  have h0 : (0 : Int) ≠ READLINE_OPT := by decide
  have key : ∀ o : ReadOutcome, 0 ≤ o.ret → o = .data o.bytes := by
    intro o ho
    cases o with
    | err => simp [ReadOutcome.ret] at ho
    | data bs => rfl
  unfold netfile_read at h ⊢
  by_cases hD : D > 0
  · simp only [hD, if_true] at h ⊢
    unfold netfile_crono_read at h ⊢
    by_cases hn : step.selectRet > 0
    · simp only [hn, if_true, netfile_std_read, h0, if_false] at h ⊢
      exact key _ h
    · simp only [hn, if_false] at h
      omega
  · simp only [hD, if_false, netfile_std_read, h0] at h ⊢
    exact key _ h

theorem netfile_read_failing (step : SockStep) (fd : Int) (count : Nat) (D : Int)
    (hD : D > 0)
    (hs : step.selectRet ≤ 0 ∨ (step.selectRet > 0 ∧ step.readRes = .err)) :
    (netfile_read step fd count 0 D).ret = -1 := by
  have h0 : (0 : Int) ≠ READLINE_OPT := by decide
  unfold netfile_read netfile_crono_read
  simp only [hD, if_true]
  rcases hs with hs | ⟨hs, he⟩
  · have : ¬ step.selectRet > 0 := by omega
    simp only [this, if_false]
  · simp only [hs, if_true, netfile_std_read, h0, if_false, he, ReadOutcome.ret]

theorem netfile_read_deliver_ret (bs : List Byte) (fd : Int) (count : Nat) (D : Int) :
    (netfile_read (SockStep.deliver bs) fd count 0 D).ret = (bs.length : Int) := by
  have h0 : (0 : Int) ≠ READLINE_OPT := by decide
  unfold netfile_read netfile_crono_read
  by_cases hD : D > 0 <;>
    simp [hD, netfile_std_read, h0, SockStep.deliver, ReadOutcome.ret]

theorem netfile_read_deliver_bytes (bs : List Byte) (fd : Int) (count : Nat) (D : Int) :
    (netfile_read (SockStep.deliver bs) fd count 0 D).bytes = bs := by
  have h0 : (0 : Int) ≠ READLINE_OPT := by decide
  unfold netfile_read netfile_crono_read
  by_cases hD : D > 0 <;>
    simp [hD, netfile_std_read, h0, SockStep.deliver, ReadOutcome.bytes]

theorem bswap32_lt (x : Nat) : bswap32 x < 4294967296 := by
  unfold bswap32
  omega

theorem ntohl_lt (be : Bool) (x : Nat) : ntohl be x < 4294967296 := by
  unfold ntohl
  cases be
  · simpa using bswap32_lt _
  · simp only [if_true]
    omega

theorem toOffT_of_range (x : Int) (h1 : -9223372036854775808 ≤ x)
    (h2 : x < 9223372036854775808) : toOffT x = x := by
  unfold toOffT
  omega

/-- The content loop changes nothing in the session but the status label. -/
theorem netfile_recv_loop_session (env : RecvEnv) (C : Nat) :
    ∀ (script : List SockStep) (u : Netfile) (bl : Int) (nw : Nat) (w : List Byte)
      (r : RecvResult),
      netfile_recv_loop env C script u bl nw w = some r →
        r.session.fsize = u.fsize ∧ r.session.ftimestamp = u.ftimestamp ∧
        r.session.socket = u.socket ∧ r.session.timerlength = u.timerlength := by
  have hh : ∀ (u : Netfile) (c : Int),
      (netfile_error_handler u c).fsize = u.fsize ∧
      (netfile_error_handler u c).ftimestamp = u.ftimestamp ∧
      (netfile_error_handler u c).socket = u.socket ∧
      (netfile_error_handler u c).timerlength = u.timerlength := by
    intro u c
    unfold netfile_error_handler
    repeat' split
    all_goals exact ⟨rfl, rfl, rfl, rfl⟩
  intro script
  induction script with
  | nil =>
    intro u bl nw w r h
    unfold netfile_recv_loop at h
    split at h
    · simp at h
    · simp only [Option.some.injEq] at h
      subst h
      exact hh _ _
  | cons s rest ih =>
    intro u bl nw w r h
    unfold netfile_recv_loop at h
    simp only at h
    split at h
    · split at h
      · simp only [Option.some.injEq] at h
        subst h
        exact hh _ _
      · split at h
        · split at h
          · simp only [Option.some.injEq] at h
            subst h
            exact hh _ _
          · exact ih _ _ _ _ _ h
        · exact ih _ _ _ _ _ h
    · simp only [Option.some.injEq] at h
      subst h
      exact hh _ _

/-- Bounds on the bytes written by a content loop that ends in success when no
read returns zero bytes or more than the chunk size. -/
theorem netfile_recv_loop_bounds (env : RecvEnv) (C : Nat)
    (hC : C < 9223372036854775808) :
    ∀ (script : List SockStep) (u : Netfile) (bl : Int) (nw : Nat) (w : List Byte)
      (r : RecvResult),
      (∀ s ∈ script, ∀ bs, s.readRes = .data bs → 1 ≤ bs.length ∧ bs.length ≤ C) →
      bl < 9223372036854775808 →
      netfile_recv_loop env C script u bl nw w = some r → r.ret = 0 →
        (bl ≤ 0 → r.written = w) ∧
        (bl > 0 → (w.length : Int) + bl ≤ r.written.length ∧
                  (r.written.length : Int) ≤ w.length + bl + C - 1) := by
  intro script
  induction script with
  | nil =>
    intro u bl nw w r _ _ h hok
    unfold netfile_recv_loop at h
    split at h
    · simp at h
    · rename_i hbl
      simp only [Option.some.injEq] at h
      subst h
      exact ⟨fun _ => rfl, fun hp => absurd hp hbl⟩
  | cons s rest ih =>
    intro u bl nw w r hreads hblt h hok
    unfold netfile_recv_loop at h
    simp only at h
    split at h
    · rename_i hbl
      refine ⟨fun hle => by omega, fun _ => ?_⟩
      split at h
      · simp only [Option.some.injEq] at h
        subst h
        simp [ERRVAL] at hok
      · rename_i hneg
        have hnn : 0 ≤ (netfile_read s u.socket C 0 u.timerlength).ret := by omega
        have hdata := netfile_read_opt0_nonneg s u.socket C u.timerlength hnn
        have hlen := netfile_read_length s u.socket C 0 u.timerlength hnn
        have hb := hreads s (List.mem_cons_self _ _) _ hdata
        have hrest : ∀ s' ∈ rest, ∀ bs, s'.readRes = .data bs →
            1 ≤ bs.length ∧ bs.length ≤ C :=
          fun s' hs' => hreads s' (List.mem_cons_of_mem _ hs')
        split at h
        · split at h
          · simp only [Option.some.injEq] at h
            subst h
            simp [ERRVAL] at hok
          · rename_i hpos hfw
            have hfw2 : env.fwrite (netfile_read s u.socket C 0 u.timerlength).bytes
                = toSizeT (netfile_read s u.socket C 0 u.timerlength).ret := by
              by_contra hne
              exact hfw hne
            rw [← hlen, toSizeT_natCast _ (by omega)] at hfw2
            rw [hfw2] at h
            have hoff : toOffT (bl - ((netfile_read s u.socket C 0
                u.timerlength).bytes.length : Int))
                = bl - ((netfile_read s u.socket C 0 u.timerlength).bytes.length : Int) := by
              apply toOffT_of_range <;> omega
            rw [hoff] at h
            have := ih u _ _ _ r hrest (by omega) h hok
            by_cases hnext : bl - ((netfile_read s u.socket C 0
                u.timerlength).bytes.length : Int) ≤ 0
            · have hw := this.1 hnext
              rw [hw]
              simp only [List.length_append, Nat.cast_add]
              omega
            · have hw := this.2 (by omega)
              simp only [List.length_append, Nat.cast_add] at hw
              omega
        · omega
    · rename_i hbl
      simp only [Option.some.injEq] at h
      subst h
      exact ⟨fun _ => rfl, fun hp => absurd hp hbl⟩

theorem bytes_of_sum (b0 b1 b2 b3 : Nat) (h0 : b0 < 256) (h1 : b1 < 256) (h2 : b2 < 256)
    (h3 : b3 < 256) :
    (b0 * 16777216 + b1 * 65536 + b2 * 256 + b3) % 256 = b3 ∧
    (b0 * 16777216 + b1 * 65536 + b2 * 256 + b3) / 256 % 256 = b2 ∧
    (b0 * 16777216 + b1 * 65536 + b2 * 256 + b3) / 65536 % 256 = b1 ∧
    (b0 * 16777216 + b1 * 65536 + b2 * 256 + b3) / 16777216 % 256 = b0 ∧
    (b0 * 16777216 + b1 * 65536 + b2 * 256 + b3) < 4294967296 := by
  refine ⟨?_, ?_, ?_, ?_, ?_⟩ <;> omega

theorem sum_of_bytes (x : Nat) (hx : x < 4294967296) :
    (x / 16777216 % 256) * 16777216 + (x / 65536 % 256) * 65536 + (x / 256 % 256) * 256
      + x % 256 = x := by
  omega

theorem bswap32_bswap32 (x : Nat) (hx : x < 4294967296) : bswap32 (bswap32 x) = x := by
  obtain ⟨e0, e1, e2, e3, _⟩ := bytes_of_sum (x % 256) (x / 256 % 256) (x / 65536 % 256)
    (x / 16777216 % 256) (Nat.mod_lt _ (by decide)) (Nat.mod_lt _ (by decide))
    (Nat.mod_lt _ (by decide)) (Nat.mod_lt _ (by decide))
  have hs := sum_of_bytes x hx
  unfold bswap32
  rw [e0, e1, e2, e3]
  exact hs

theorem toMem_false_bswap32 (x : Nat) : toMem false (bswap32 x) = be32 x := by
  obtain ⟨e0, e1, e2, e3, _⟩ := bytes_of_sum (x % 256) (x / 256 % 256) (x / 65536 % 256)
    (x / 16777216 % 256) (Nat.mod_lt _ (by decide)) (Nat.mod_lt _ (by decide))
    (Nat.mod_lt _ (by decide)) (Nat.mod_lt _ (by decide))
  simp only [toMem, Bool.false_eq_true, if_false, be32, bswap32]
  rw [e0, e1, e2, e3]

theorem toMem_htonl (be : Bool) (x : Nat) (hx : x < 4294967296) :
    toMem be (htonl be x) = be32 x := by
  have e0 : x % 4294967296 = x := by omega
  cases be
  · simp only [htonl, Bool.false_eq_true, if_false, e0]
    exact toMem_false_bswap32 x
  · simp only [toMem, htonl, be32, if_true, e0]

theorem be32_length (x : Nat) : (be32 x).length = 4 := rfl

theorem toMem_length (be : Bool) (x : Nat) : (toMem be x).length = 4 := by
  cases be <;> rfl

theorem fromMem_false_be32 (x : Nat) : fromMem false (be32 x) = bswap32 x := by
  simp only [fromMem, be32, Bool.false_eq_true, if_false, List.getD_cons_zero,
    List.getD_cons_succ, Nat.mod_mod, bswap32]

theorem fromMem_true_be32 (x : Nat) (hx : x < 4294967296) : fromMem true (be32 x) = x := by
  simp only [fromMem, be32, if_true, List.getD_cons_zero, List.getD_cons_succ, Nat.mod_mod]
  exact sum_of_bytes x hx

theorem ntohl_fromMem_be32 (be : Bool) (x : Nat) (hx : x < 4294967296) :
    ntohl be (fromMem be (be32 x)) = x := by
  cases be
  · rw [fromMem_false_be32]
    simp only [ntohl, Bool.false_eq_true, if_false]
    rw [Nat.mod_eq_of_lt (bswap32_lt x)]
    exact bswap32_bswap32 x hx
  · rw [fromMem_true_be32 x hx]
    simp only [ntohl, if_true]
    exact Nat.mod_eq_of_lt hx

/-- Decoding a header field that was read whole yields the encoded value, on
either byte order and whatever the variable held before. -/
theorem decode_whole_field (be : Bool) (g x : Nat) (hx : x < 4294967296) :
    ntohl be (fromMem be (overlay (be32 x) (toMem be g))) = x := by
  rw [overlay_full _ _ (by rw [be32_length, toMem_length])]
  exact ntohl_fromMem_be32 be x hx

theorem toU32_lt (x : Int) : toU32 x < 4294967296 := by
  unfold toU32
  omega

theorem toU32_natCast (n : Nat) (h : n < 4294967296) : toU32 (n : Int) = n := by
  unfold toU32
  omega

theorem take_append_drop_length (l : List Byte) (C : Nat) :
    l.take C ++ l.drop (l.take C).length = l := by
  rcases Nat.le_total C l.length with h | h
  · rw [List.length_take, Nat.min_eq_left h]
    exact List.take_append_drop C l
  · rw [List.take_of_length_le h]
    simp

/-- The content loop of the sender in an environment without failures sends
the rest of the file and reports success. -/
theorem netfile_send_loop_ok (bufsize : Nat) (be : Bool) (content : List Byte) (t : Int)
    (C : Nat) (hC : 1 ≤ C) (hlen : content.length < 9223372036854775808) (u : Netfile) :
    ∀ (fuel fp : Nat) (sock : List Byte), fp ≤ content.length →
      content.length - fp ≤ fuel →
      netfile_send_loop (SendEnv.ok bufsize be content t) C fuel u
          (((content.length - fp : Nat) : Int)) (fp : Int) sock
        = some { ret := 0, session := netfile_error_handler u OPERATION_SUCCESS,
                 sock := sock ++ content.drop fp } := by
  intro fuel
  induction fuel with
  | zero =>
    intro fp sock hfp hfuel
    have hz : content.length - fp = 0 := by omega
    unfold netfile_send_loop
    rw [hz]
    have hd : content.drop fp = [] := List.drop_eq_nil_of_le (by omega)
    simp [SUCCESSVAL, hd]
  | succ fuel ih =>
    intro fp sock hfp hfuel
    unfold netfile_send_loop
    by_cases hbl : (((content.length - fp : Nat) : Int)) > 0
    · simp only [hbl, if_true, SendEnv.ok, Bool.false_eq_true, if_false, Int.toNat_ofNat]
      have hn : ((List.take C (List.drop fp content)).length) = min C (content.length - fp) := by
        simp
      have hpos : 1 ≤ (List.take C (List.drop fp content)).length := by
        rw [hn]
        have : 0 < content.length - fp := by exact_mod_cast hbl
        omega
      have hle : (List.take C (List.drop fp content)).length ≤ content.length - fp := by
        rw [hn]
        omega
      rw [toSizeT_natCast _ (by omega)]
      simp only [ne_eq, not_true_eq_false, if_false]
      have e1 : toOffT (((content.length - fp : Nat) : Int)
            - ((List.take C (List.drop fp content)).length : Int))
          = ((content.length - (fp + (List.take C (List.drop fp content)).length) : Nat) : Int) := by
        rw [toOffT_of_range] <;> omega
      have e2 : toOffT ((fp : Int) + ((List.take C (List.drop fp content)).length : Int))
          = ((fp + (List.take C (List.drop fp content)).length : Nat) : Int) := by
        rw [toOffT_of_range] <;> omega
      rw [e1, e2]
      have := ih (fp + (List.take C (List.drop fp content)).length)
        (sock ++ List.take C (List.drop fp content)) (by omega) (by omega)
      simp only [SendEnv.ok] at this
      rw [this]
      have hsplit : List.take C (List.drop fp content)
            ++ List.drop (fp + (List.take C (List.drop fp content)).length) content
          = List.drop fp content := by
        have h := take_append_drop_length (content.drop fp) C
        simpa [List.drop_drop, Nat.add_comm] using h
      simp only [List.append_assoc, hsplit]
    · have hz : content.length - fp = 0 := by
        have : ¬ 0 < content.length - fp := by
          intro h
          exact hbl (by exact_mod_cast h)
        omega
      rw [hz]
      have hd : content.drop fp = [] := List.drop_eq_nil_of_le (by omega)
      simp [SUCCESSVAL, hd]

/-- In an environment without failures `netfile_send` returns success after
writing the two header fields in network order followed by the file content. -/
theorem netfile_send_ok (bufsize : Nat) (be : Bool) (content : List Byte) (t : Int)
    (C : Nat) (hC : 1 ≤ C) (hlen : content.length < 9223372036854775808) (u : Netfile)
    (fuel : Nat) (hfuel : content.length ≤ fuel) :
    netfile_send (SendEnv.ok bufsize be content t) u C fuel
      = some { ret := 0, session := netfile_error_handler u OPERATION_SUCCESS,
               sock := be32 (toU32 content.length) ++ be32 (toU32 t) ++ content } := by
  have hcs : chunkSize bufsize C = C := by
    unfold chunkSize
    have : ¬ C ≤ 0 := by omega
    simp only [this, if_false]
  have hloop := netfile_send_loop_ok bufsize be content t C hC hlen u fuel 0
    (be32 (toU32 content.length) ++ be32 (toU32 t)) (Nat.zero_le _) (by omega)
  have hoff : toOffT (content.length : Int) = (content.length : Int) := by
    apply toOffT_of_range <;> omega
  simp only [Nat.sub_zero, Nat.cast_zero, List.drop_zero] at hloop
  unfold netfile_send
  simp only [SendEnv.ok, Bool.not_true, Bool.false_eq_true, if_false, hcs,
    toMem_htonl _ _ (toU32_lt _), be32_length, hoff,
    show ¬ ((4 : Nat) : Int) < 0 by decide, Int.toNat_ofNat]
  have ht : ∀ x, List.take 4 (be32 x) = be32 x := fun x => rfl
  simp only [ht]
  simpa only [SendEnv.ok] using hloop

/-- The content loop of the receiver, fed the content in non-empty chunks with
no failure, writes the chunks in order and reports success. -/
theorem netfile_recv_loop_chunks (env : RecvEnv) (hfw : ∀ c, env.fwrite c = c.length)
    (C : Nat) (u : Netfile) :
    ∀ (chunks : List (List Byte)) (nw : Nat) (w : List Byte),
      (∀ c ∈ chunks, c ≠ []) → chunks.flatten.length < 9223372036854775808 →
      netfile_recv_loop env C (chunks.map SockStep.deliver) u
          (chunks.flatten.length : Int) nw w
        = some { ret := 0, session := netfile_error_handler u OPERATION_SUCCESS,
                 written := w ++ chunks.flatten } := by
  intro chunks
  induction chunks with
  | nil =>
    intro nw w _ _
    simp [netfile_recv_loop, SUCCESSVAL]
  | cons c cs ih =>
    intro nw w hne hlen
    have hc : c ≠ [] := hne c (List.mem_cons_self _ _)
    have hcpos : 0 < c.length := List.length_pos.mpr hc
    simp only [List.flatten_cons, List.length_append] at hlen ⊢
    simp only [List.map_cons]
    unfold netfile_recv_loop
    have hbl : ((c.length + cs.flatten.length : Nat) : Int) > 0 := by omega
    have hnneg : ¬ ((c.length : Nat) : Int) < 0 := by omega
    have hpos : ((c.length : Nat) : Int) > 0 := by omega
    simp only [hbl, if_true, netfile_read_deliver_ret, netfile_read_deliver_bytes, hnneg,
      if_false, hpos, hfw, toSizeT_natCast c.length (by omega), ne_eq, not_true_eq_false]
    have hoff : toOffT (((c.length + cs.flatten.length : Nat) : Int) - (c.length : Int))
        = (cs.flatten.length : Int) := by
      rw [toOffT_of_range] <;> omega
    rw [hoff, ih c.length (w ++ c) (fun c' hc' => hne c' (List.mem_cons_of_mem _ hc'))
      (by omega)]
    simp only [List.append_assoc]

/-- Transmit then receive: the sender's socket output, split into two whole
header fields and non-empty content chunks, makes the receiver return success
with the original content written and the size and timestamp recorded. -/
theorem roundtrip_core (content : List Byte) (t : Int) (Cs Cr : Nat) (hCs : 1 ≤ Cs)
    (hS : content.length < 4294967296) (bufS bufR : Nat) (beS beR : Bool)
    (g1 g2 g3 : Nat) (us ur : Netfile) (fuel : Nat) (hfuel : content.length ≤ fuel)
    (h1 h2 : List Byte) (chunks : List (List Byte)) (hh1 : h1.length = 4)
    (hh2 : h2.length = 4) (hch : ∀ c ∈ chunks, c ≠ [])
    (rs : SendResult)
    (hsend : netfile_send (SendEnv.ok bufS beS content t) us Cs fuel = some rs)
    (hsock : h1 ++ h2 ++ chunks.flatten = rs.sock) :
    netfile_recv (RecvEnv.ok bufR beR g1 g2 g3) ur Cr
        (SockStep.deliver h1 :: SockStep.deliver h2 :: chunks.map SockStep.deliver)
      = some { ret := 0,
               session := netfile_error_handler
                 { ur with fsize := content.length, ftimestamp := toU32 t } OPERATION_SUCCESS,
               written := content } := by
  rw [netfile_send_ok bufS beS content t Cs hCs (by omega) us fuel hfuel] at hsend
  simp only [Option.some.injEq] at hsend
  subst hsend
  simp only [List.append_assoc] at hsock
  have e1 : h1 = be32 (toU32 content.length) :=
    List.append_inj_left hsock (by rw [hh1, be32_length])
  subst e1
  have hsock2 := List.append_cancel_left hsock
  have e2 : h2 = be32 (toU32 t) :=
    List.append_inj_left hsock2 (by rw [hh2, be32_length])
  subst e2
  have e3 : chunks.flatten = content := List.append_cancel_left hsock2
  have hloop := netfile_recv_loop_chunks (RecvEnv.ok bufR beR g1 g2 g3) (fun _ => rfl)
    (chunkSize bufR Cr)
    { ur with fsize := content.length, ftimestamp := toU32 t } chunks g3 []
    hch (by rw [e3]; omega)
  rw [e3] at hloop
  unfold netfile_recv
  have hn : ∀ n : Nat, ¬ ((n : Nat) : Int) < 0 := fun n => by omega
  simp only [RecvEnv.ok, Bool.not_true, Bool.false_eq_true, if_false,
    netfile_read_deliver_ret, netfile_read_deliver_bytes, hn,
    decode_whole_field _ _ _ (toU32_lt _), decode_whole_field _ _ _ hS,
    toU32_natCast _ hS]
  simpa only [RecvEnv.ok, List.nil_append] using hloop

/-- A negative result of either header read ends `netfile_recv` with `-1` and
the label `TIMEOUT_ERR`. -/
theorem header_read_negative (env : RecvEnv) (u : Netfile) (C : Nat)
    (hm : env.mallocOk = true) (s1 s2 : SockStep) (rest : List SockStep) :
    ((netfile_read s1 u.socket 4 0 u.timerlength).ret < 0 →
      ∃ r, netfile_recv env u C (s1 :: rest) = some r ∧ r.ret = -1 ∧
        netfile_error_info r.session = "TIMEOUT_ERR" ∧ r.written = []) ∧
    (0 ≤ (netfile_read s1 u.socket 4 0 u.timerlength).ret →
      (netfile_read s2 u.socket 4 0 u.timerlength).ret < 0 →
      ∃ r, netfile_recv env u C (s1 :: s2 :: rest) = some r ∧ r.ret = -1 ∧
        netfile_error_info r.session = "TIMEOUT_ERR" ∧ r.written = []) := by
  refine ⟨?_, ?_⟩
  · intro h1
    unfold netfile_recv
    simp only [hm, Bool.not_true, Bool.false_eq_true, if_false, h1, if_true]
    refine ⟨_, rfl, ?_⟩
    simp [ERRVAL, handler_timeout, netfile_error_info]
  · intro h1 h2
    have h1n : ¬ (netfile_read s1 u.socket 4 0 u.timerlength).ret < 0 := by omega
    unfold netfile_recv
    simp only [hm, Bool.not_true, Bool.false_eq_true, if_false, h1n, h2, if_true]
    refine ⟨_, rfl, ?_⟩
    simp [ERRVAL, handler_timeout, netfile_error_info]

/-- Zero-byte reads with `numWritten = 0` leave `bytes_left` unchanged, so the
content loop never ends on them. -/
theorem netfile_recv_loop_zero_reads (env : RecvEnv) (C : Nat) (u : Netfile) :
    ∀ (n : Nat) (bl : Int) (w : List Byte), 0 < bl → bl < 9223372036854775808 →
      netfile_recv_loop env C (List.replicate n (SockStep.deliver [])) u bl 0 w = none := by
  intro n
  induction n with
  | zero =>
    intro bl w hbl _
    simp [netfile_recv_loop, hbl]
  | succ n ih =>
    intro bl w hbl hlt
    have hoff : toOffT (bl - ((0 : Nat) : Int)) = bl := by
      rw [toOffT_of_range] <;> omega
    simp only [List.replicate_succ]
    unfold netfile_recv_loop
    simp only [gt_iff_lt, hbl, if_true, netfile_read_deliver_ret, List.length_nil,
      Nat.cast_zero, lt_self_iff_false, if_false]
    simp only [Nat.cast_zero] at hoff
    rw [hoff]
    exact ih bl w hbl hlt

theorem overlay_length (data old : List Byte) : (overlay data old).length = old.length := by
  unfold overlay
  simp only [List.length_take, List.length_append, List.length_drop]
  omega

/-- The calls `netfile_recv_msg` makes are those of its one `netfile_read`. -/
theorem netfile_recv_msg_calls (step : SockStep) (socket : Int) (inbox : Netcomm) :
    (netfile_recv_msg step socket inbox).calls
      = (netfile_read step socket inbox.size READLINE_OPT inbox.timerlength).calls := by
  unfold netfile_recv_msg
  simp only [Nat.not_lt_zero, if_false]
  split
  · rfl
  · split <;> rfl

/-- Every call made by `netfile_read` is the readiness wait with the session's
deadline or a read primitive asked for exactly `count` bytes. -/
theorem netfile_read_calls_mem (step : SockStep) (fd : Int) (count : Nat) (option D : Int)
    (c : Call) (hc : c ∈ (netfile_read step fd count option D).calls) :
    c = Call.select fd D ∨ c = Call.read fd count ∨ c = Call.readline fd count := by
  unfold netfile_read at hc
  by_cases hD : D > 0
  · have hD2 : ¬ D ≤ 0 := by omega
    simp only [hD, if_true, netfile_crono_read, hD2, if_false] at hc
    by_cases hn : step.selectRet > 0
    · simp only [hn, if_true, netfile_std_read] at hc
      by_cases ho : option = READLINE_OPT
      · simp only [ho, if_true, List.mem_cons, List.mem_singleton, List.not_mem_nil,
          or_false] at hc
        rcases hc with h | h
        · exact Or.inl h
        · exact Or.inr (Or.inr h)
      · simp only [ho, if_false, List.mem_cons, List.mem_singleton, List.not_mem_nil,
          or_false] at hc
        rcases hc with h | h
        · exact Or.inl h
        · exact Or.inr (Or.inl h)
    · simp only [hn, if_false, List.mem_singleton] at hc
      exact Or.inl hc
  · have h0 : (0 : Int) ≠ READLINE_OPT := by decide
    simp only [hD, if_false, netfile_std_read, h0, List.mem_singleton] at hc
    exact Or.inr (Or.inl hc)

/-- Non-empty chunks delivered without failure, in total no more than
`bytes_left`, are written in order; the loop then goes on with what follows. -/
theorem netfile_recv_loop_chunks_then (env : RecvEnv) (hfw : ∀ c, env.fwrite c = c.length)
    (C : Nat) :
    ∀ (chunks : List (List Byte)) (nw : Nat), (∀ c ∈ chunks, c ≠ []) →
      ∃ nw2 : Nat, ∀ (tail : List SockStep) (u : Netfile) (bl : Int) (w : List Byte),
        (chunks.flatten.length : Int) ≤ bl → bl < 9223372036854775808 →
        netfile_recv_loop env C (chunks.map SockStep.deliver ++ tail) u bl nw w
          = netfile_recv_loop env C tail u (bl - (chunks.flatten.length : Int)) nw2
              (w ++ chunks.flatten) := by
  intro chunks
  induction chunks with
  | nil =>
    intro nw _
    refine ⟨nw, ?_⟩
    intro tail u bl w _ _
    simp
  | cons c cs ih =>
    intro nw hne
    have hc : c ≠ [] := hne c (List.mem_cons_self _ _)
    have hcpos : 0 < c.length := List.length_pos.mpr hc
    obtain ⟨nw2, hih⟩ := ih c.length (fun c2 hc2 => hne c2 (List.mem_cons_of_mem _ hc2))
    refine ⟨nw2, ?_⟩
    intro tail u bl w hle hlt
    simp only [List.flatten_cons, List.length_append, Nat.cast_add] at hle ⊢
    simp only [List.map_cons, List.cons_append]
    rw [netfile_recv_loop]
    have hbl : bl > 0 := by omega
    have hnneg : ¬ ((c.length : Nat) : Int) < 0 := by omega
    have hpos : ((c.length : Nat) : Int) > 0 := by omega
    simp only [hbl, if_true, netfile_read_deliver_ret, netfile_read_deliver_bytes, hnneg,
      if_false, hpos, hfw, toSizeT_natCast c.length (by omega), ne_eq, not_true_eq_false]
    have hoff : toOffT (bl - (c.length : Int)) = bl - (c.length : Int) := by
      rw [toOffT_of_range] <;> omega
    rw [hoff, hih tail u (bl - (c.length : Int)) (w ++ c) (by omega) (by omega)]
    have e1 : bl - (c.length : Int) - (cs.flatten.length : Int)
        = bl - ((c.length : Int) + (cs.flatten.length : Int)) := by omega
    rw [e1, List.append_assoc]

/-- A negative result of a content read, after a whole header declaring `S`
bytes and non-empty chunks of fewer than `S` bytes in total, ends
`netfile_recv` with `-1` and the label `FILE_IO_ERR`. -/
theorem content_read_negative (env : RecvEnv) (u : Netfile) (C : Nat)
    (hm : env.mallocOk = true) (hfw : ∀ c, env.fwrite c = c.length)
    (S : Nat) (hS : S < 4294967296) (h2 : List Byte) (pre : List (List Byte))
    (hne : ∀ c ∈ pre, c ≠ []) (hlt : pre.flatten.length < S) (s : SockStep)
    (hs : (netfile_read s u.socket (chunkSize env.BUFSIZE C) 0 u.timerlength).ret < 0)
    (rest : List SockStep) :
    ∃ r, netfile_recv env u C
        (SockStep.deliver (be32 S) :: SockStep.deliver h2 ::
          (pre.map SockStep.deliver ++ s :: rest)) = some r ∧
      r.ret = -1 ∧ netfile_error_info r.session = "FILE_IO_ERR" ∧
      r.written = pre.flatten := by
  obtain ⟨nw2, hpre⟩ := netfile_recv_loop_chunks_then env hfw (chunkSize env.BUFSIZE C) pre
    env.numWritten hne
  have hn : ∀ n : Nat, ¬ ((n : Nat) : Int) < 0 := fun n => by omega
  unfold netfile_recv
  simp only [hm, Bool.not_true, Bool.false_eq_true, if_false,
    netfile_read_deliver_ret, netfile_read_deliver_bytes, hn,
    decode_whole_field _ _ _ hS]
  rw [hpre (s :: rest) _ (S : Int) [] (by omega) (by omega)]
  rw [netfile_recv_loop]
  have hbl : (S : Int) - (pre.flatten.length : Int) > 0 := by omega
  simp only [hbl, if_true, hs]
  refine ⟨_, rfl, ?_⟩
  simp [ERRVAL, handler_read_failed, netfile_error_info]

/-! ## Deadline-bound read: claims C5 and C6 -/

/-- Claim C5: `netfile_read` returns `-1` without calling a read primitive exactly
when the deadline `D` is positive and `Select` signals no readiness; this is
exactly the case in which its whole result is `-1` after the single call
`Select` on `fd` with a timeout of `D` seconds. The readiness wait with
timeout `D` is the first call exactly when `D > 0`. With deadline `0` no
readiness wait is made and a read primitive is always called. -/
theorem netfile_read_timeout_iff (step : SockStep) (fd : Int) (count : Nat)
    (option D : Int) :
    (((netfile_read step fd count option D).ret = -1 ∧
        (netfile_read step fd count option D).calls.all (fun c => !c.isRead) = true)
      ↔ (D > 0 ∧ step.selectRet ≤ 0)) ∧
    ((D > 0 ∧ step.selectRet ≤ 0) ↔
      netfile_read step fd count option D
        = { ret := -1, bytes := [], calls := [Call.select fd D] }) ∧
    (D > 0 ↔
      (netfile_read step fd count option D).calls.head? = some (Call.select fd D)) ∧
    (D = 0 →
      (netfile_read step fd count option D).calls.all (fun c => !c.isSelect) = true ∧
      (netfile_read step fd count option D).calls.any Call.isRead = true) := by
  have h0 : (0 : Int) ≠ READLINE_OPT := by decide
  refine ⟨?_, ?_, ?_, ?_⟩
  · by_cases hD : D > 0
    · by_cases hn : step.selectRet > 0
      · have hn2 : ¬ step.selectRet ≤ 0 := by omega
        by_cases ho : option = READLINE_OPT <;>
          simp [netfile_read, netfile_crono_read, netfile_std_read, hD, hn, hn2, ho,
            Call.isRead]
      · have hn2 : step.selectRet ≤ 0 := by omega
        simp [netfile_read, netfile_crono_read, hD, hn, hn2, Call.isRead]
    · simp [netfile_read, netfile_std_read, hD, h0, Call.isRead]
  · by_cases hD : D > 0
    · have hD2 : ¬ D ≤ 0 := by omega
      by_cases hn : step.selectRet > 0
      · have hn2 : ¬ step.selectRet ≤ 0 := by omega
        by_cases ho : option = READLINE_OPT <;>
          simp [netfile_read, netfile_crono_read, netfile_std_read, hD, hD2, hn, hn2, ho]
      · have hn2 : step.selectRet ≤ 0 := by omega
        simp [netfile_read, netfile_crono_read, hD, hD2, hn, hn2]
    · simp [netfile_read, netfile_std_read, hD, h0]
  · by_cases hD : D > 0
    · have hD2 : ¬ D ≤ 0 := by omega
      by_cases hn : step.selectRet > 0
      · simp [netfile_read, netfile_crono_read, hD, hD2, hn]
      · simp [netfile_read, netfile_crono_read, hD, hD2, hn]
    · simp [netfile_read, netfile_std_read, hD, h0]
  · intro hD
    subst hD
    simp [netfile_read, netfile_std_read, h0, Call.isRead, Call.isSelect]

/-- Witness for C5: a 5 second deadline that expires yields `-1` after the
single call `Select` with timeout 5; with deadline 0 the read is called. -/
theorem netfile_read_timeout_iff_witness :
    netfile_read SockStep.expire 3 4 0 5
      = { ret := -1, bytes := [], calls := [Call.select 3 5] } ∧
    ((netfile_read SockStep.expire 3 4 0 0).calls.all (fun c => !c.isSelect) = true ∧
      (netfile_read SockStep.expire 3 4 0 0).calls.any Call.isRead = true) :=
  ⟨(netfile_read_timeout_iff SockStep.expire 3 4 0 5).2.1.mp ⟨by decide, by decide⟩,
   (netfile_read_timeout_iff SockStep.expire 3 4 0 0).2.2.2 rfl⟩

/-- Claim C6 (defect): with deadline `0`, `netfile_read` called in mode
`READLINE_OPT` calls plain `read`, not `readline_unbuffered`, and returns the
raw read's result; `netfile_recv_msg` on an inbox whose timer is disabled
therefore reads its control line with plain `read`. With a positive deadline
and a ready socket the same mode does call `readline_unbuffered`. -/
theorem netfile_read_drops_readline_opt (step : SockStep) (fd : Int) (count : Nat)
    (inbox : Netcomm) :
    (netfile_read step fd count READLINE_OPT 0).calls = [Call.read fd count] ∧
    (netfile_read step fd count READLINE_OPT 0).ret = step.readRes.ret ∧
    (netfile_read step fd count READLINE_OPT 0).bytes = step.readRes.bytes ∧
    (netfile_recv_msg step fd (netfile_inbox_disable_timer inbox)).calls
      = [Call.read fd inbox.size] ∧
    (netfile_read (SockStep.deliver [71, 69, 84]) fd count READLINE_OPT 5).calls
      = [Call.select fd 5, Call.readline fd count] := by
  have h0 : (0 : Int) ≠ READLINE_OPT := by decide
  refine ⟨?_, ?_, ?_, ?_, ?_⟩
  · simp [netfile_read, netfile_std_read, h0]
  · simp [netfile_read, netfile_std_read, h0]
  · simp [netfile_read, netfile_std_read, h0]
  · unfold netfile_recv_msg
    simp only [netfile_inbox_disable_timer, netfile_read, netfile_std_read, h0]
    simp only [gt_iff_lt, lt_self_iff_false, if_false, Nat.not_lt_zero]
    split <;> [rfl; (split <;> rfl)]
  · simp [netfile_read, netfile_crono_read, netfile_std_read, SockStep.deliver]

/-! ## Message channel: claims C3 and C4 -/

/-- Claim C3: for an inbox of capacity `N ≥ 1`, when the read fills the buffer
(returns `N` bytes) the returned message is the first `N - 1` bytes received
followed by the terminator at index `N - 1`; and for every read result the
terminator is stored at an index strictly below `N` (the buffer afterwards is
the buffer as the read left it with that one slot set to the terminator, and
it is what the function returns), every read primitive called is asked for
exactly `N` bytes (so it stores none past the capacity), and the buffer
afterwards still has `N` bytes. -/
theorem netfile_recv_msg_truncates (socket : Int) (inbox : Netcomm)
    (hN : 1 ≤ inbox.size) (h64 : inbox.size < 18446744073709551616)
    (hbuf : inbox.msg.length = inbox.size) :
    (∀ step : SockStep,
      (netfile_read step socket inbox.size READLINE_OPT inbox.timerlength).ret
          = (inbox.size : Int) →
      (netfile_recv_msg step socket inbox).ret
          = some ((netfile_read step socket inbox.size READLINE_OPT
                    inbox.timerlength).bytes.take (inbox.size - 1) ++ [0]) ∧
      (netfile_recv_msg step socket inbox).termIndex = some (inbox.size - 1)) ∧
    (∀ (step : SockStep) (i : Nat),
      (netfile_recv_msg step socket inbox).termIndex = some i →
        i < inbox.size ∧
        (netfile_recv_msg step socket inbox).inbox.msg
          = (overlay (netfile_read step socket inbox.size READLINE_OPT
              inbox.timerlength).bytes inbox.msg).set i 0 ∧
        (netfile_recv_msg step socket inbox).ret
          = some (netfile_recv_msg step socket inbox).inbox.msg) ∧
    (∀ (step : SockStep) (c : Call), c ∈ (netfile_recv_msg step socket inbox).calls →
      c = Call.select socket inbox.timerlength ∨ c = Call.read socket inbox.size ∨
        c = Call.readline socket inbox.size) ∧
    (∀ step : SockStep, (netfile_recv_msg step socket inbox).inbox.msg.length = inbox.size ∧
      (netfile_recv_msg step socket inbox).inbox.size = inbox.size) := by
  have hidx : toSizeT ((inbox.size : Int) - 1) = inbox.size - 1 := by
    unfold toSizeT
    omega
  refine ⟨?_, ?_, ?_, ?_⟩
  · intro step hret
    have hlen := netfile_read_length step socket inbox.size READLINE_OPT inbox.timerlength
      (by rw [hret]; exact Int.natCast_nonneg _)
    rw [hret] at hlen
    have hlen2 : (netfile_read step socket inbox.size READLINE_OPT
        inbox.timerlength).bytes.length = inbox.size := by exact_mod_cast hlen
    have hov := overlay_full (netfile_read step socket inbox.size READLINE_OPT
        inbox.timerlength).bytes inbox.msg (by rw [hlen2, hbuf])
    unfold netfile_recv_msg
    simp only [hret, toSizeT_natCast _ h64, hov, hidx, Nat.not_lt_zero, if_false,
      lt_self_iff_false]
    have hne : ¬ inbox.size = 0 := by omega
    simp only [hne, if_false]
    exact ⟨by rw [set_last_eq_take _ _ hN hlen2], trivial⟩
  · intro step i
    unfold netfile_recv_msg
    simp only [Nat.not_lt_zero, if_false, hidx]
    split
    · intro h
      simp at h
    · split
      · intro h
        simp only [Option.some.injEq] at h
        subst h
        exact ⟨by assumption, rfl, rfl⟩
      · intro h
        simp only [Option.some.injEq] at h
        subst h
        exact ⟨by omega, rfl, rfl⟩
  · intro step c hc
    rw [netfile_recv_msg_calls] at hc
    exact netfile_read_calls_mem step socket inbox.size READLINE_OPT inbox.timerlength c hc
  · intro step
    unfold netfile_recv_msg
    simp only [Nat.not_lt_zero, if_false]
    split
    · exact ⟨by rw [overlay_length]; exact hbuf, rfl⟩
    · split
      · exact ⟨by rw [List.length_set, overlay_length]; exact hbuf, rfl⟩
      · exact ⟨by rw [List.length_set, overlay_length]; exact hbuf, rfl⟩

/-- Witness for C3: an inbox of capacity 4 receiving the five byte line
`GET a` truncated by the read to four bytes. -/
theorem netfile_recv_msg_truncates_witness :
    (netfile_recv_msg (SockStep.deliver [71, 69, 84, 32]) 3
        (netfile_inbox_init 4 [0, 0, 0, 0])).ret = some [71, 69, 84, 0] ∧
    (∀ (step : SockStep) (i : Nat),
      (netfile_recv_msg step 3 (netfile_inbox_init 4 [0, 0, 0, 0])).termIndex = some i →
        i < 4) ∧
    (netfile_recv_msg (SockStep.deliver [71, 69, 84, 32]) 3
        (netfile_inbox_init 4 [0, 0, 0, 0])).inbox.msg = [71, 69, 84, 0] ∧
    (∀ (step : SockStep) (c : Call),
      c ∈ (netfile_recv_msg step 3 (netfile_inbox_init 4 [0, 0, 0, 0])).calls →
        c = Call.select 3 0 ∨ c = Call.read 3 4 ∨ c = Call.readline 3 4) ∧
    (netfile_recv_msg (SockStep.deliver [71, 69, 84, 32]) 3
        (netfile_inbox_init 4 [0, 0, 0, 0])).calls = [Call.read 3 4] :=
  have h := netfile_recv_msg_truncates 3 (netfile_inbox_init 4 [0, 0, 0, 0])
    (by decide) (by decide) (by decide)
  ⟨(h.1 (SockStep.deliver [71, 69, 84, 32]) (by decide)).1,
   fun step i hi => (h.2.1 step i hi).1,
   (h.2.1 (SockStep.deliver [71, 69, 84, 32]) 3 (by decide)).2.1,
   h.2.2.1, by decide⟩

/-- Claim C4 (defect): when the deadline-bound read inside `netfile_recv_msg` fails
(result `-1`: read error or expired deadline) the function does not return
`NULL`; it stores a terminator in the last slot and returns the buffer. -/
theorem netfile_recv_msg_failed_read_not_null (step : SockStep) (socket : Int)
    (inbox : Netcomm)
    (hfail : (netfile_read step socket inbox.size READLINE_OPT inbox.timerlength).ret
      = -1) :
    (netfile_recv_msg step socket inbox).ret ≠ none := by
  unfold netfile_recv_msg
  simp only [hfail, toSizeT_neg_one, Nat.not_lt_zero, if_false]
  simp only [show ¬ (18446744073709551615 : Nat) = 0 by decide, if_false]
  split <;> simp

/-- Evaluation for C4: an inbox of capacity 4 with a 5 second timer; the
deadline expires (and, second case, the read fails), yet the stale buffer is
returned as a received line. -/
theorem netfile_recv_msg_failed_read_not_null_witness :
    (netfile_read SockStep.expire 3 4 READLINE_OPT 5).ret = -1 ∧
    (netfile_recv_msg SockStep.expire 3
        (netfile_inbox_enable_timer (netfile_inbox_init 4 [81, 85, 73, 84]) 5)).ret ≠ none ∧
    (netfile_recv_msg SockStep.fail 3 (netfile_inbox_init 4 [81, 85, 73, 84])).ret
      = some [81, 85, 73, 0] :=
  ⟨by decide,
   netfile_recv_msg_failed_read_not_null SockStep.expire 3
     (netfile_inbox_enable_timer (netfile_inbox_init 4 [81, 85, 73, 84]) 5) (by decide),
   by decide⟩

/-! ## Bulk receiver: header reads (C7) and status labels (C8) -/

/-- Claim C7 (counterexample): on a little-endian host whose `file_size_n` happens to
hold zero, the read of the size field delivers only two bytes; `netfile_recv`
accepts the header and returns success with status `DONE`. -/
theorem netfile_recv_accepts_short_header_field :
    (netfile_read (SockStep.deliver [0, 0]) 3 4 0 0).ret = 2 ∧
    netfile_recv (RecvEnv.ok 4096 false 0 0 0) (netfile_init 3) 4
        [SockStep.deliver [0, 0], SockStep.deliver [101, 83, 241, 0]]
      = some { ret := 0,
               session := { socket := 3, err_status := "DONE", fsize := 0,
                            ftimestamp := 1700000000, timerlength := 0 },
               written := [] } := by
  refine ⟨by decide, ?_⟩
  rfl

/-- Claim C7 (amended): when the read of the size field, or of the timestamp field,
returns a negative result (read error or expired deadline), `netfile_recv`
returns `-1` with status `TIMEOUT_ERR` and writes nothing to the file. -/
theorem netfile_recv_header_read_failure (env : RecvEnv) (u : Netfile) (C : Nat)
    (hm : env.mallocOk = true) (s1 s2 : SockStep) (rest : List SockStep) :
    ((netfile_read s1 u.socket 4 0 u.timerlength).ret < 0 →
      ∃ r, netfile_recv env u C (s1 :: rest) = some r ∧ r.ret = -1 ∧
        netfile_error_info r.session = "TIMEOUT_ERR" ∧ r.written = []) ∧
    (0 ≤ (netfile_read s1 u.socket 4 0 u.timerlength).ret →
      (netfile_read s2 u.socket 4 0 u.timerlength).ret < 0 →
      ∃ r, netfile_recv env u C (s1 :: s2 :: rest) = some r ∧ r.ret = -1 ∧
        netfile_error_info r.session = "TIMEOUT_ERR" ∧ r.written = []) :=
  header_read_negative env u C hm s1 s2 rest

/-- Witness for C7 (amended): a failed size-field read, and a failed timestamp
read after a whole size field. -/
theorem netfile_recv_header_read_failure_witness :
    (∃ r, netfile_recv (RecvEnv.ok 4096 false 0 0 0) (netfile_init 3) 4
        [SockStep.fail] = some r ∧ r.ret = -1 ∧
        netfile_error_info r.session = "TIMEOUT_ERR" ∧ r.written = []) ∧
    (∃ r, netfile_recv (RecvEnv.ok 4096 false 0 0 0) (netfile_init 3) 4
        [SockStep.deliver [0, 0, 0, 10], SockStep.fail] = some r ∧ r.ret = -1 ∧
        netfile_error_info r.session = "TIMEOUT_ERR" ∧ r.written = []) :=
  ⟨(netfile_recv_header_read_failure (RecvEnv.ok 4096 false 0 0 0) (netfile_init 3) 4 rfl
      SockStep.fail SockStep.fail []).1 (by decide),
   (netfile_recv_header_read_failure (RecvEnv.ok 4096 false 0 0 0) (netfile_init 3) 4 rfl
      (SockStep.deliver [0, 0, 0, 10]) SockStep.fail []).2 (by decide) (by decide)⟩

/-- Claim C8 (counterexample): with a 5 second deadline, an expired deadline during a
content read records `FILE_IO_ERR`, not the timeout label; and a hard read
error on the size field records the same label as an expired deadline there. -/
theorem netfile_recv_labels_not_distinct :
    (netfile_recv (RecvEnv.ok 4096 false 0 0 0) (netfile_enable_timer (netfile_init 3) 5) 4
        [SockStep.deliver [0, 0, 0, 10], SockStep.deliver [101, 83, 241, 0],
         SockStep.expire]).map (fun r => netfile_error_info r.session)
      = some "FILE_IO_ERR" ∧
    (netfile_recv (RecvEnv.ok 4096 false 0 0 0) (netfile_enable_timer (netfile_init 3) 5) 4
        [SockStep.deliver [0, 0, 0, 10], SockStep.deliver [101, 83, 241, 0],
         SockStep.fail]).map (fun r => netfile_error_info r.session)
      = some "FILE_IO_ERR" ∧
    (netfile_recv (RecvEnv.ok 4096 false 0 0 0) (netfile_enable_timer (netfile_init 3) 5) 4
        [SockStep.expire]).map (fun r => netfile_error_info r.session)
      = some "TIMEOUT_ERR" ∧
    (netfile_recv (RecvEnv.ok 4096 false 0 0 0) (netfile_enable_timer (netfile_init 3) 5) 4
        [SockStep.fail]).map (fun r => netfile_error_info r.session)
      = some "TIMEOUT_ERR" := by
  refine ⟨?_, ?_, ?_, ?_⟩ <;> rfl

/-- Claim C8 (amended): for a session with deadline `D > 0`, the label recorded when
a read fails depends on the phase only, not on the cause. Whether the deadline
expired (`Select` signalled no readiness) or the read itself failed, a failed
size-field or timestamp-field read makes `netfile_recv` return `-1` with
`TIMEOUT_ERR`, and a failed content read, after a whole header declaring `S`
bytes and any number of non-empty chunks of fewer than `S` bytes in total,
makes `netfile_recv` return `-1` with `FILE_IO_ERR`; the content loop does so
from every state with `bytes_left > 0`. -/
theorem netfile_recv_failure_label_by_phase (env : RecvEnv) (u : Netfile) (C : Nat)
    (hm : env.mallocOk = true) (hD : u.timerlength > 0) (s : SockStep)
    (hs : s.selectRet ≤ 0 ∨ (s.selectRet > 0 ∧ s.readRes = .err)) :
    (∀ rest, ∃ r, netfile_recv env u C (s :: rest) = some r ∧ r.ret = -1 ∧
        netfile_error_info r.session = "TIMEOUT_ERR") ∧
    (∀ (h1 : List Byte) rest,
      ∃ r, netfile_recv env u C (SockStep.deliver h1 :: s :: rest) = some r ∧ r.ret = -1 ∧
        netfile_error_info r.session = "TIMEOUT_ERR") ∧
    (∀ rest (bytes_left : Int) (numWritten : Nat) (written : List Byte), bytes_left > 0 →
      ∃ r, netfile_recv_loop env (chunkSize env.BUFSIZE C) (s :: rest) u bytes_left
          numWritten written = some r ∧ r.ret = -1 ∧
        netfile_error_info r.session = "FILE_IO_ERR" ∧ r.written = written) ∧
    (∀ (S : Nat) (h2 : List Byte) (pre : List (List Byte)) (rest : List SockStep),
      S < 4294967296 → (∀ c, env.fwrite c = c.length) → (∀ c ∈ pre, c ≠ []) →
      pre.flatten.length < S →
      ∃ r, netfile_recv env u C
          (SockStep.deliver (be32 S) :: SockStep.deliver h2 ::
            (pre.map SockStep.deliver ++ s :: rest)) = some r ∧
        r.ret = -1 ∧ netfile_error_info r.session = "FILE_IO_ERR" ∧
        r.written = pre.flatten) := by
  refine ⟨?_, ?_, ?_, ?_⟩
  · intro rest
    have h := (header_read_negative env u C hm s s rest).1
      (by rw [netfile_read_failing s u.socket 4 u.timerlength hD hs]; decide)
    obtain ⟨r, hr, hret, hlab, _⟩ := h
    exact ⟨r, hr, hret, hlab⟩
  · intro h1 rest
    have h := (header_read_negative env u C hm (SockStep.deliver h1) s rest).2
      (by rw [netfile_read_deliver_ret]; exact Int.natCast_nonneg _)
      (by rw [netfile_read_failing s u.socket 4 u.timerlength hD hs]; decide)
    obtain ⟨r, hr, hret, hlab, _⟩ := h
    exact ⟨r, hr, hret, hlab⟩
  · intro rest bl nw w hbl
    have hf := netfile_read_failing s u.socket (chunkSize env.BUFSIZE C) u.timerlength hD hs
    unfold netfile_recv_loop
    simp only [hbl, if_true, hf, show ((-1 : Int) < 0) by decide]
    refine ⟨_, rfl, ?_⟩
    simp [ERRVAL, handler_read_failed, netfile_error_info]
  · intro S h2 pre rest hS hfw hne hlt
    exact content_read_negative env u C hm hfw S hS h2 pre hne hlt s
      (by rw [netfile_read_failing s u.socket _ u.timerlength hD hs]; decide) rest

/-- Witness for C8 (amended): a 5 second deadline; the size-field read and the
second content read of a 10 byte transfer fail, once because the deadline
expires and once because the read itself fails. -/
theorem netfile_recv_failure_label_by_phase_witness :
    ((∃ r, netfile_recv (RecvEnv.ok 4096 false 0 0 0)
        (netfile_enable_timer (netfile_init 3) 5) 4 [SockStep.expire] = some r ∧
        r.ret = -1 ∧ netfile_error_info r.session = "TIMEOUT_ERR") ∧
     (∃ r, netfile_recv (RecvEnv.ok 4096 false 0 0 0)
        (netfile_enable_timer (netfile_init 3) 5) 4 [SockStep.fail] = some r ∧
        r.ret = -1 ∧ netfile_error_info r.session = "TIMEOUT_ERR")) ∧
    ((∃ r, netfile_recv (RecvEnv.ok 4096 false 0 0 0)
        (netfile_enable_timer (netfile_init 3) 5) 4
        [SockStep.deliver [0, 0, 0, 10], SockStep.deliver [101, 83, 241, 0],
         SockStep.deliver [1, 2, 3, 4], SockStep.expire] = some r ∧
        r.ret = -1 ∧ netfile_error_info r.session = "FILE_IO_ERR" ∧
        r.written = [1, 2, 3, 4]) ∧
     (∃ r, netfile_recv (RecvEnv.ok 4096 false 0 0 0)
        (netfile_enable_timer (netfile_init 3) 5) 4
        [SockStep.deliver [0, 0, 0, 10], SockStep.deliver [101, 83, 241, 0],
         SockStep.deliver [1, 2, 3, 4], SockStep.fail] = some r ∧
        r.ret = -1 ∧ netfile_error_info r.session = "FILE_IO_ERR" ∧
        r.written = [1, 2, 3, 4])) :=
  have he := netfile_recv_failure_label_by_phase (RecvEnv.ok 4096 false 0 0 0)
    (netfile_enable_timer (netfile_init 3) 5) 4 rfl (by decide) SockStep.expire
    (Or.inl (by decide))
  have hf := netfile_recv_failure_label_by_phase (RecvEnv.ok 4096 false 0 0 0)
    (netfile_enable_timer (netfile_init 3) 5) 4 rfl (by decide) SockStep.fail
    (Or.inr ⟨by decide, rfl⟩)
  ⟨⟨he.1 [], hf.1 []⟩,
   ⟨he.2.2.2 10 [101, 83, 241, 0] [[1, 2, 3, 4]] [] (by decide) (fun _ => rfl)
      (by decide) (by decide),
    hf.2.2.2 10 [101, 83, 241, 0] [[1, 2, 3, 4]] [] (by decide) (fun _ => rfl)
      (by decide) (by decide)⟩⟩

/-! ## Bulk receiver: content loop (C2, C10) -/

/-- Claim C2 (defect): the header declares 10 bytes, the first content read delivers
4 bytes and the peer then half-closes, so the next reads return zero bytes.
`netfile_recv` subtracts the stale `numWritten` (4) on each zero-byte read,
leaves the loop with `bytes_left = -2` and returns success with status `DONE`
after writing only 4 bytes. When the very first content read returns zero
bytes and `numWritten` starts at zero, the loop makes no progress: the result
is `none` however many zero-byte reads are supplied. -/
theorem netfile_recv_zero_read_not_detected (n : Nat) :
    netfile_recv (RecvEnv.ok 4096 false 0 0 0) (netfile_init 3) 4
        [SockStep.deliver [0, 0, 0, 10], SockStep.deliver [101, 83, 241, 0],
         SockStep.deliver [1, 2, 3, 4], SockStep.deliver [], SockStep.deliver []]
      = some { ret := 0,
               session := { socket := 3, err_status := "DONE", fsize := 10,
                            ftimestamp := 1700000000, timerlength := 0 },
               written := [1, 2, 3, 4] } ∧
    netfile_recv (RecvEnv.ok 4096 false 0 0 0) (netfile_init 3) 4
        (SockStep.deliver [0, 0, 0, 10] :: SockStep.deliver [101, 83, 241, 0] ::
          List.replicate n (SockStep.deliver []))
      = none := by
  refine ⟨rfl, ?_⟩
  have h : netfile_recv (RecvEnv.ok 4096 false 0 0 0) (netfile_init 3) 4
      (SockStep.deliver [0, 0, 0, 10] :: SockStep.deliver [101, 83, 241, 0] ::
        List.replicate n (SockStep.deliver []))
      = netfile_recv_loop (RecvEnv.ok 4096 false 0 0 0) 4
          (List.replicate n (SockStep.deliver []))
          { netfile_init 3 with fsize := 10, ftimestamp := 1700000000 } 10 0 [] := rfl
  rw [h]
  exact netfile_recv_loop_zero_reads _ _ _ n 10 [] (by decide) (by decide)

/-- Claim C10 (counterexample): the header declares 2 bytes and the single content
read, made with chunk size 4, returns 4 bytes; `netfile_recv` writes all 4
bytes and returns success. -/
theorem netfile_recv_writes_beyond_declared_size :
    netfile_recv (RecvEnv.ok 4096 false 0 0 0) (netfile_init 3) 4
        [SockStep.deliver [0, 0, 0, 2], SockStep.deliver [101, 83, 241, 0],
         SockStep.deliver [1, 2, 3, 4]]
      = some { ret := 0,
               session := { socket := 3, err_status := "DONE", fsize := 2,
                            ftimestamp := 1700000000, timerlength := 0 },
               written := [1, 2, 3, 4] } := by
  rfl

/-- Claim C10 (amended): when no content read returns zero bytes or more than the
chunk size, every successful `netfile_recv` has written at least the declared
size and fewer than declared size plus chunk size bytes. -/
theorem netfile_recv_written_bounds (env : RecvEnv) (u : Netfile) (C : Nat)
    (script : List SockStep) (r : RecvResult)
    (hC : chunkSize env.BUFSIZE C < 9223372036854775808)
    (hreads : ∀ s ∈ script.drop 2, ∀ bs, s.readRes = .data bs →
      1 ≤ bs.length ∧ bs.length ≤ chunkSize env.BUFSIZE C)
    (hr : netfile_recv env u C script = some r) (hok : r.ret = 0) :
    netfile_get_size r.session ≤ r.written.length ∧
    r.written.length ≤ netfile_get_size r.session + (chunkSize env.BUFSIZE C - 1) := by
  unfold netfile_recv at hr
  simp only at hr
  split at hr
  · simp only [Option.some.injEq] at hr
    subst hr
    simp [ERRVAL] at hok
  · split at hr
    · simp at hr
    · rename_i s1 rest1
      split at hr
      · simp only [Option.some.injEq] at hr
        subst hr
        simp [ERRVAL] at hok
      · split at hr
        · simp at hr
        · rename_i s2 rest2
          split at hr
          · simp only [Option.some.injEq] at hr
            subst hr
            simp [ERRVAL] at hok
          · have hsess := netfile_recv_loop_session _ _ _ _ _ _ _ _ hr
            have hlt := ntohl_lt env.bigEndian (fromMem env.bigEndian
              (overlay (netfile_read s1 u.socket 4 0 u.timerlength).bytes
                (toMem env.bigEndian env.file_size_n)))
            have hb := netfile_recv_loop_bounds env _ hC rest2 _ _ _ _ r
              (by simpa using hreads) (by omega) hr hok
            simp only [netfile_get_size, hsess.1]
            simp only [List.length_nil, Nat.cast_zero, zero_add] at hb
            by_cases hz : ntohl env.bigEndian (fromMem env.bigEndian
              (overlay (netfile_read s1 u.socket 4 0 u.timerlength).bytes
                (toMem env.bigEndian env.file_size_n))) = 0
            · have hw := hb.1 (by omega)
              rw [hw, hz]
              simp
            · have hw := hb.2 (by omega)
              omega

/-- Witness for C10 (amended): a 10 byte transfer received in chunks of at most
4 bytes. -/
theorem netfile_recv_written_bounds_witness :
    (10 : Nat) ≤ [1, 2, 3, 4, 5, 6, 7, 8, 9, 10].length ∧
    [1, 2, 3, 4, 5, 6, 7, 8, 9, 10].length ≤ 10 + (chunkSize 4096 4 - 1) :=
  netfile_recv_written_bounds (RecvEnv.ok 4096 false 0 0 0) (netfile_init 3) 4
    [SockStep.deliver [0, 0, 0, 10], SockStep.deliver [101, 83, 241, 0],
     SockStep.deliver [1, 2, 3, 4], SockStep.deliver [5, 6, 7],
     SockStep.deliver [8, 9, 10]]
    { ret := 0,
      session := { socket := 3, err_status := "DONE", fsize := 10,
                   ftimestamp := 1700000000, timerlength := 0 },
      written := [1, 2, 3, 4, 5, 6, 7, 8, 9, 10] }
    (by decide)
    (by
      intro s hs bs hbs
      simp only [List.drop_succ_cons, List.drop_zero, List.mem_cons, List.mem_singleton,
        List.not_mem_nil, or_false] at hs
      rcases hs with rfl | rfl | rfl <;>
        · simp only [SockStep.deliver, ReadOutcome.data.injEq] at hbs
          subst hbs
          decide)
    rfl rfl

/-! ## Transmit then receive (C1, C9) -/

/-- Claim C1: for every file content of `S < 2^32` bytes and chunk sizes `≥ 1` on
both sides, when no operation fails `netfile_send` returns `0` having written
to its socket the size field, the timestamp field and then the content; and
when these bytes reach `netfile_recv` as two whole 4-byte header fields
followed by non-empty reads of at most the requested count, `netfile_recv`
returns `0`, the bytes it writes to its file are the original content in
order, and `netfile_get_size` on the receiving session is `S`. -/
theorem transmit_receive_roundtrip (content : List Byte) (t : Int) (Cs Cr : Nat)
    (hCs : 1 ≤ Cs) (_hCr : 1 ≤ Cr) (hS : content.length < 4294967296)
    (bufS bufR : Nat) (beS beR : Bool) (g1 g2 g3 : Nat) (us ur : Netfile) (fuel : Nat)
    (hfuel : content.length ≤ fuel) :
    ∃ rs, netfile_send (SendEnv.ok bufS beS content t) us Cs fuel = some rs ∧ rs.ret = 0 ∧
      rs.sock = be32 content.length ++ be32 (t % 4294967296).toNat ++ content ∧
      (∀ chunks : List (List Byte), (∀ c ∈ chunks, c ≠ [] ∧ c.length ≤ Cr) →
        chunks.flatten = rs.sock.drop 8 →
        ∃ rr, netfile_recv (RecvEnv.ok bufR beR g1 g2 g3) ur Cr
            (SockStep.deliver (rs.sock.take 4) ::
              SockStep.deliver ((rs.sock.drop 4).take 4) ::
              chunks.map SockStep.deliver) = some rr ∧
          rr.ret = 0 ∧ rr.written = content ∧
          netfile_get_size rr.session = content.length) ∧
      ∀ (h1 h2 : List Byte) (chunks : List (List Byte)),
        h1.length = 4 → h2.length = 4 → (∀ c ∈ chunks, c ≠ [] ∧ c.length ≤ Cr) →
        h1 ++ h2 ++ chunks.flatten = rs.sock →
        ∃ rr, netfile_recv (RecvEnv.ok bufR beR g1 g2 g3) ur Cr
            (SockStep.deliver h1 :: SockStep.deliver h2 :: chunks.map SockStep.deliver)
              = some rr ∧
          rr.ret = 0 ∧ rr.written = content ∧
          netfile_get_size rr.session = content.length := by
  have hsend := netfile_send_ok bufS beS content t Cs hCs (by omega) us fuel hfuel
  have hgen : ∀ (h1 h2 : List Byte) (chunks : List (List Byte)),
      h1.length = 4 → h2.length = 4 → (∀ c ∈ chunks, c ≠ [] ∧ c.length ≤ Cr) →
      h1 ++ h2 ++ chunks.flatten
        = be32 (toU32 content.length) ++ be32 (toU32 t) ++ content →
      ∃ rr, netfile_recv (RecvEnv.ok bufR beR g1 g2 g3) ur Cr
          (SockStep.deliver h1 :: SockStep.deliver h2 :: chunks.map SockStep.deliver)
            = some rr ∧
        rr.ret = 0 ∧ rr.written = content ∧
        netfile_get_size rr.session = content.length := by
    intro h1 h2 chunks hh1 hh2 hch hsock
    have hcore := roundtrip_core content t Cs Cr hCs hS bufS bufR beS beR g1 g2 g3 us ur fuel
      hfuel h1 h2 chunks hh1 hh2 (fun c hc => (hch c hc).1) _ hsend hsock
    refine ⟨_, hcore, rfl, rfl, ?_⟩
    simp [netfile_get_size, handler_success]
  refine ⟨_, hsend, rfl, ?_, ?_, hgen⟩
  · simp only [toU32_natCast _ hS]
    rfl
  · intro chunks hch hfl
    have hd : (be32 (toU32 content.length) ++ be32 (toU32 t) ++ content).drop 8 = content :=
      rfl
    simp only [hd] at hfl
    have ht1 : (be32 (toU32 content.length) ++ be32 (toU32 t) ++ content).take 4
        = be32 (toU32 content.length) := rfl
    have ht2 : ((be32 (toU32 content.length) ++ be32 (toU32 t) ++ content).drop 4).take 4
        = be32 (toU32 t) := rfl
    simp only [ht1, ht2]
    exact hgen _ _ chunks rfl rfl hch (by rw [hfl])

/-- Witness for C1: a 10 byte file sent with chunk size 4 from a big-endian
host and received on a little-endian host in reads of 4, 3 and 3 bytes. -/
theorem transmit_receive_roundtrip_witness :
    ∃ rs, netfile_send (SendEnv.ok 4096 true [1, 2, 3, 4, 5, 6, 7, 8, 9, 10] 1700000000)
        (netfile_init 5) 4 10 = some rs ∧ rs.ret = 0 ∧
      rs.sock = [0, 0, 0, 10, 101, 83, 241, 0, 1, 2, 3, 4, 5, 6, 7, 8, 9, 10] ∧
      ∃ rr, netfile_recv (RecvEnv.ok 4096 false 7 8 9) (netfile_init 3) 4
          (SockStep.deliver (rs.sock.take 4) :: SockStep.deliver ((rs.sock.drop 4).take 4) ::
            [SockStep.deliver [1, 2, 3, 4], SockStep.deliver [5, 6, 7],
             SockStep.deliver [8, 9, 10]]) = some rr ∧
        rr.ret = 0 ∧ rr.written = [1, 2, 3, 4, 5, 6, 7, 8, 9, 10] ∧
        netfile_get_size rr.session = 10 := by
  obtain ⟨rs, hs, hret, hsock, h, _⟩ := transmit_receive_roundtrip
    [1, 2, 3, 4, 5, 6, 7, 8, 9, 10] 1700000000 4 4 (by decide) (by decide) (by decide)
    4096 4096 true false 7 8 9 (netfile_init 5) (netfile_init 3) 10 (by decide)
  refine ⟨rs, hs, hret, hsock, ?_⟩
  exact h [[1, 2, 3, 4], [5, 6, 7], [8, 9, 10]] (by decide) (by rw [hsock]; rfl)

/-- Claim C9: for every modification time `t`, `netfile_send` writes `t mod 2^32`
in network order as the second 4-byte field of its output, on either host
byte order; once `netfile_recv` has read the two header fields whole, every
result it returns has `netfile_get_timestamp = t mod 2^32`, whatever the byte
order of the receiving host and whatever follows on the socket; and when the
content (of fewer than `2^32` bytes) follows in non-empty reads, `netfile_recv`
does return, with that timestamp. -/
theorem timestamp_roundtrip (content : List Byte) (t : Int) (Cs Cr : Nat)
    (hCs : 1 ≤ Cs) (hS : content.length < 9223372036854775808)
    (bufS bufR : Nat) (beS beR : Bool) (g1 g2 g3 : Nat) (us ur : Netfile) (fuel : Nat)
    (hfuel : content.length ≤ fuel) :
    ∃ rs, netfile_send (SendEnv.ok bufS beS content t) us Cs fuel = some rs ∧ rs.ret = 0 ∧
      rs.sock = be32 (toU32 content.length) ++ be32 (t % 4294967296).toNat ++ content ∧
      (∀ (rest : List SockStep) (rr : RecvResult),
        netfile_recv (RecvEnv.ok bufR beR g1 g2 g3) ur Cr
            (SockStep.deliver (rs.sock.take 4) ::
              SockStep.deliver ((rs.sock.drop 4).take 4) :: rest) = some rr →
          netfile_get_timestamp rr.session = (t % 4294967296).toNat) ∧
      (∀ chunks : List (List Byte), (∀ c ∈ chunks, c ≠ [] ∧ c.length ≤ Cr) →
        chunks.flatten = rs.sock.drop 8 → content.length < 4294967296 →
        ∃ rr, netfile_recv (RecvEnv.ok bufR beR g1 g2 g3) ur Cr
            (SockStep.deliver (rs.sock.take 4) ::
              SockStep.deliver ((rs.sock.drop 4).take 4) ::
              chunks.map SockStep.deliver) = some rr ∧
          rr.ret = 0 ∧ netfile_get_timestamp rr.session = (t % 4294967296).toNat) ∧
      ∀ (h1 h2 tail : List Byte), h1.length = 4 → h2.length = 4 →
        h1 ++ h2 ++ tail = rs.sock →
        (∀ (rest : List SockStep) (rr : RecvResult),
          netfile_recv (RecvEnv.ok bufR beR g1 g2 g3) ur Cr
              (SockStep.deliver h1 :: SockStep.deliver h2 :: rest) = some rr →
            netfile_get_timestamp rr.session = (t % 4294967296).toNat) ∧
        (∀ chunks : List (List Byte), (∀ c ∈ chunks, c ≠ [] ∧ c.length ≤ Cr) →
          chunks.flatten = tail → content.length < 4294967296 →
          ∃ rr, netfile_recv (RecvEnv.ok bufR beR g1 g2 g3) ur Cr
              (SockStep.deliver h1 :: SockStep.deliver h2 :: chunks.map SockStep.deliver)
                = some rr ∧
            rr.ret = 0 ∧ netfile_get_timestamp rr.session = (t % 4294967296).toNat) := by
  have hsend := netfile_send_ok bufS beS content t Cs hCs hS us fuel hfuel
  have hgen : ∀ (h1 h2 tail : List Byte), h1.length = 4 → h2.length = 4 →
      h1 ++ h2 ++ tail = be32 (toU32 content.length) ++ be32 (toU32 t) ++ content →
      (∀ (rest : List SockStep) (rr : RecvResult),
        netfile_recv (RecvEnv.ok bufR beR g1 g2 g3) ur Cr
            (SockStep.deliver h1 :: SockStep.deliver h2 :: rest) = some rr →
          netfile_get_timestamp rr.session = (t % 4294967296).toNat) ∧
      (∀ chunks : List (List Byte), (∀ c ∈ chunks, c ≠ [] ∧ c.length ≤ Cr) →
        chunks.flatten = tail → content.length < 4294967296 →
        ∃ rr, netfile_recv (RecvEnv.ok bufR beR g1 g2 g3) ur Cr
            (SockStep.deliver h1 :: SockStep.deliver h2 :: chunks.map SockStep.deliver)
              = some rr ∧
          rr.ret = 0 ∧ netfile_get_timestamp rr.session = (t % 4294967296).toNat) := by
    intro h1 h2 tail hh1 hh2 hsock
    refine ⟨?_, ?_⟩
    · intro rest rr hrecv
      simp only [List.append_assoc] at hsock
      have hsock2 := List.append_inj_right hsock (by rw [hh1, be32_length])
      have e2 : h2 = be32 (toU32 t) :=
        List.append_inj_left hsock2 (by rw [hh2, be32_length])
      subst e2
      unfold netfile_recv at hrecv
      have hn : ∀ n : Nat, ¬ ((n : Nat) : Int) < 0 := fun n => by omega
      simp only [RecvEnv.ok, Bool.not_true, Bool.false_eq_true, if_false,
        netfile_read_deliver_ret, netfile_read_deliver_bytes, hn,
        decode_whole_field _ _ _ (toU32_lt _)] at hrecv
      have hsess := netfile_recv_loop_session _ _ _ _ _ _ _ _ hrecv
      simp only [netfile_get_timestamp, hsess.2.1]
      rfl
    · intro chunks hch hfl hS32
      subst hfl
      have hcore := roundtrip_core content t Cs Cr hCs hS32 bufS bufR beS beR g1 g2 g3 us ur
        fuel hfuel h1 h2 chunks hh1 hh2 (fun c hc => (hch c hc).1) _ hsend hsock
      refine ⟨_, hcore, rfl, ?_⟩
      simp only [netfile_get_timestamp, handler_success]
      rfl
  have hwhole := hgen (be32 (toU32 content.length)) (be32 (toU32 t)) content rfl rfl rfl
  exact ⟨_, hsend, rfl, rfl, hwhole.1, fun chunks hch hfl hS32 => hwhole.2 chunks hch hfl hS32,
    hgen⟩

/-- Witness for C9: a modification time above `2^32` (`2^32 + 5`), sent from a
little-endian host and received on a big-endian host; the session records
`5`. -/
theorem timestamp_roundtrip_witness :
    ∃ rs, netfile_send (SendEnv.ok 4096 false [1, 2, 3] 4294967301) (netfile_init 5) 2 3
        = some rs ∧ rs.ret = 0 ∧
      rs.sock = [0, 0, 0, 3, 0, 0, 0, 5, 1, 2, 3] ∧
      ∃ rr, netfile_recv (RecvEnv.ok 4096 true 7 8 9) (netfile_init 3) 2
          (SockStep.deliver (rs.sock.take 4) :: SockStep.deliver ((rs.sock.drop 4).take 4) ::
            [SockStep.deliver [1, 2], SockStep.deliver [3]]) = some rr ∧
        rr.ret = 0 ∧ netfile_get_timestamp rr.session = 5 := by
  obtain ⟨rs, hs, hret, hsock, _, h, _⟩ := timestamp_roundtrip [1, 2, 3] 4294967301 2 2
    (by decide) (by decide) 4096 4096 false true 7 8 9 (netfile_init 5) (netfile_init 3) 3
    (by decide)
  refine ⟨rs, hs, hret, hsock, ?_⟩
  exact h [[1, 2], [3]] (by decide) (by rw [hsock]; rfl) (by decide)

end Libnetfile
